import Mathlib

set_option maxHeartbeats 1000000

/-!
Verification development for the BHY_BMENet repository: a 3D volumetric
variational autoencoder (code/models/aekl_no_attention.py) together with its
training driver (code/train_gradevae.py).

Four complementary shallow embeddings are developed:

* a shape-level model of the network: every layer appearing in the model file
  (3d convolution, group normalization, residual block, down/up-sampling) is
  embedded as a partial function on 5-d tensor shapes, and the block lists
  built by `Encoder.__init__` and `Decoder.__init__` are reproduced from the
  construction loops of the source;
* a value-level model of `AutoencoderKL` and `ResBlock`: tensors are real
  valued families over an index set, and the sub-modules (with their current
  weights) are carried as function-valued fields, so `encode`, `decode`,
  `sampling` and `ResBlock.forward` are embedded exactly as the source
  composes them;
* a model of the training loop of `train_gradevae.py` `main`: the per-batch
  body (forward, loss, zero_grad, backward, optimizer step, bookkeeping,
  scalar logging, checkpointing, image logging, validation) is embedded as a
  state transformer emitting a trace of side-effect events; automatic
  differentiation and the AdamW update are the external substrate and enter
  as function parameters;
* a small model of Python name resolution (locals / module globals /
  builtins) for the identifiers loaded by `OnlyEncoder.__init__`.
-/

namespace BMENet

/-- Real-valued tensor with index set `ι` (an idealisation of a floating point
torch tensor; the index set stands for the set of element positions). -/
abbrev Tens (ι : Type) : Type := ι → ℝ

/-- `torch.nn.functional.mse_loss` with its default mean reduction: the mean
over all element positions of the squared difference. -/
noncomputable def mseLoss {ι : Type} [Fintype ι] (input target : Tens ι) : ℝ :=
  (∑ i, (input i - target i) ^ 2) / (Fintype.card ι : ℝ)

/-- The logistic sigmoid `torch.sigmoid`. -/
noncomputable def sigmoid (x : ℝ) : ℝ := 1 / (1 + Real.exp (-x))

/-- `swish(x) = x * torch.sigmoid(x)` (model file lines 12-14); `F.silu`, used
by `ResBlock.forward`, computes the same scalar function. -/
noncomputable def swish (x : ℝ) : ℝ := x * sigmoid x

/-- Elementwise `F.silu` on a tensor. -/
noncomputable def siluT {ι : Type} (t : Tens ι) : Tens ι := fun i => swish (t i)

/-! ### Shape-level model of the network

A 5-d torch tensor shape `(batch, channels, depth, height, width)`. -/

structure Shape where
  batch : Nat
  channels : Nat
  d : Nat
  h : Nat
  w : Nat
  deriving DecidableEq, Repr

/-- Output length of one spatial dimension of `nn.Conv3d` with kernel `k`,
stride `s`, symmetric padding `p` on an input of length `n`:
`(n + 2p - k) / s + 1` (floor division). -/
def convDim (n k s p : Nat) : Nat := (n + 2 * p - k) / s + 1

/-- Shape semantics of `nn.Conv3d(cin, cout, kernel_size=k, stride=s,
padding=p)`: defined when the input has `cin` channels, the stride is
positive and every padded spatial dimension is at least the kernel size
(otherwise torch raises). -/
def convShape (cin cout k s p : Nat) (sh : Shape) : Option Shape :=
  if sh.channels = cin ∧ 0 < s ∧ k ≤ sh.d + 2 * p ∧ k ≤ sh.h + 2 * p ∧ k ≤ sh.w + 2 * p then
    some ⟨sh.batch, cout, convDim sh.d k s p, convDim sh.h k s p, convDim sh.w k s p⟩
  else none

/-- Shape semantics of `Normalize(c) = nn.GroupNorm(num_groups=32,
num_channels=c, ...)` (model file lines 17-18): the identity on shapes,
defined when the input has `c` channels and 32 divides `c` (GroupNorm
requires the channel count to be divisible by the group count). -/
def groupNormShape (c : Nat) (sh : Shape) : Option Shape :=
  if sh.channels = c ∧ 32 ∣ c then some sh else none

/-- `nn.functional.pad(x, (0, 1, 0, 1, 0, 1))` in `Downsample.forward` (model
file lines 42-43): one zero appended on the trailing edge of each of the three
spatial dimensions. -/
def padOneShape (sh : Shape) : Shape := ⟨sh.batch, sh.channels, sh.d + 1, sh.h + 1, sh.w + 1⟩

/-- `F.interpolate(x, scale_factor=2.0, mode="nearest")` in `Upsample.forward`
(model file line 29): each spatial dimension doubled. -/
def interpolate2Shape (sh : Shape) : Shape :=
  ⟨sh.batch, sh.channels, 2 * sh.d, 2 * sh.h, 2 * sh.w⟩

/-- The layers out of which `Encoder.__init__` and `Decoder.__init__` build
their `blocks` lists. -/
inductive Block where
  | conv (cin cout k s p : Nat)
  | resblock (cin cout : Nat)
  | downsample (c : Nat)
  | upsample (c : Nat)
  | groupnorm (c : Nat)
  deriving DecidableEq, Repr

/-- Shape semantics of `ResBlock(cin, cout).forward` (model file lines 48-80):
`norm1` (GroupNorm on `cin`), silu, `conv1` (`cin → cout`, kernel 3, stride 1,
padding 1), `norm2`, silu, `conv2` (`cout → cout`), then the skip connection
`x + h`, where `x` first passes the 1x1 `nin_shortcut` exactly when
`cin ≠ cout`; the sum requires both operands to have the same shape. -/
def resBlockShape (cin cout : Nat) (sh : Shape) : Option Shape :=
  (groupNormShape cin sh).bind fun s1 =>
  (convShape cin cout 3 1 1 s1).bind fun s2 =>
  (groupNormShape cout s2).bind fun s3 =>
  (convShape cout cout 3 1 1 s3).bind fun hsh =>
  (if cin ≠ cout then convShape cin cout 1 1 0 sh else some sh).bind fun xs =>
  if xs = hsh then some hsh else none

/-- Shape semantics of one block. `Downsample(c)` (model file lines 34-45) is
the trailing-edge pad followed by `nn.Conv3d(c, c, kernel_size=3, stride=2,
padding=0)`; `Upsample(c)` (lines 21-31) is nearest-neighbour doubling
followed by `nn.Conv3d(c, c, kernel_size=3, stride=1, padding=1)`. -/
def blockShape : Block → Shape → Option Shape
  | Block.conv cin cout k s p, sh => convShape cin cout k s p sh
  | Block.resblock cin cout, sh => resBlockShape cin cout sh
  | Block.downsample c, sh => convShape c c 3 2 0 (padOneShape sh)
  | Block.upsample c, sh => convShape c c 3 1 1 (interpolate2Shape sh)
  | Block.groupnorm c, sh => groupNormShape c sh

/-- `Block.downsample` recogniser. -/
def isDownsample : Block → Bool
  | Block.downsample _ => true
  | _ => false

/-- `Encoder.forward` / `Decoder.forward` (model file lines 132-135, 187-190):
the blocks applied in sequence. -/
def runBlocks : List Block → Shape → Option Shape
  | [], sh => some sh
  | blk :: bs, sh => (blockShape blk sh).bind (runBlocks bs)

/-- The inner loop `for _ in range(self.num_res_blocks)` of the constructors
(model file lines 116-118 and 172-174): appends `ResBlock(block_in_ch,
block_out_ch)` and then sets `block_in_ch = block_out_ch`, `n` times; returns
the appended blocks and the final `block_in_ch`. -/
def resBlocksLoop : Nat → Nat → Nat → List Block × Nat
  | bin, _, 0 => ([], bin)
  | bin, bout, Nat.succ n =>
    let rest := resBlocksLoop bout bout n
    (Block.resblock bin bout :: rest.1, rest.2)

/-- The level loop of `Encoder.__init__` (model file lines 113-122): at level
`i`, `block_in_ch = n_channels * in_ch_mult[i]` and `block_out_ch =
n_channels * ch_mult[i]`; after the residual blocks a `Downsample` is appended
unless `i = num_resolutions - 1`. Walks `in_ch_mult` and `ch_mult` in
lockstep; `last` carries the final `block_in_ch` out of the loop. -/
def encoderLevels (n_ch nrb nres : Nat) : Nat → Nat → List Nat → List Nat → List Block × Nat
  | i, _, im :: ims, m :: ms =>
    let bin := n_ch * im
    let bout := n_ch * m
    let rbs := resBlocksLoop bin bout nrb
    let ds : List Block := if i ≠ nres - 1 then [Block.downsample rbs.2] else []
    let rest := encoderLevels n_ch nrb nres (i + 1) rbs.2 ims ms
    (rbs.1 ++ ds ++ rest.1, rest.2)
  | _, last, _, _ => ([], last)

/-- The `blocks` list built by `Encoder.__init__` (model file lines 106-130):
an initial `nn.Conv3d(in_channels, n_channels, 3, 1, 1)`, the residual /
downsampling levels driven by `in_ch_mult = (1,) + tuple(ch_mult)` and
`ch_mult`, then `Normalize(block_in_ch)` and `nn.Conv3d(block_in_ch,
z_channels, 3, 1, 1)`. -/
def encoderBlocks (in_channels n_channels z_channels : Nat) (ch_mult : List Nat)
    (num_res_blocks : Nat) : List Block :=
  let nres := ch_mult.length
  let lv := encoderLevels n_channels num_res_blocks nres 0 n_channels (1 :: ch_mult) ch_mult
  (Block.conv in_channels n_channels 3 1 1 :: lv.1)
    ++ [Block.groupnorm lv.2, Block.conv lv.2 z_channels 3 1 1]

/-- The level loop of `Decoder.__init__` (model file lines 169-178), iterating
`i` over `reversed(range(num_resolutions))` (so over `ch_mult` reversed):
`block_out_ch = n_channels * ch_mult[i]`, residual blocks carrying
`block_in_ch`, and an `Upsample` appended unless `i = 0` (i.e. unless this is
the last reversed level). -/
def decoderLevels (n_ch nrb : Nat) : Nat → List Nat → List Block × Nat
  | bin, [] => ([], bin)
  | bin, m :: ms =>
    let bout := n_ch * m
    let rbs := resBlocksLoop bin bout nrb
    let ups : List Block := if ms.isEmpty then [] else [Block.upsample rbs.2]
    let rest := decoderLevels n_ch nrb rbs.2 ms
    (rbs.1 ++ ups ++ rest.1, rest.2)

/-- The `blocks` list built by `Decoder.__init__` (model file lines 160-185):
`block_in_ch = n_channels * ch_mult[-1]`, an initial `nn.Conv3d(z_channels,
block_in_ch, 3, 1, 1)`, the reversed levels, then `Normalize(block_in_ch)`
and `nn.Conv3d(block_in_ch, out_channels, 3, 1, 1)`. -/
def decoderBlocks (n_channels z_channels out_channels : Nat) (ch_mult : List Nat)
    (num_res_blocks : Nat) : List Block :=
  let start := n_channels * ch_mult.getLastD 1
  let lv := decoderLevels n_channels num_res_blocks start ch_mult.reverse
  (Block.conv z_channels start 3 1 1 :: lv.1)
    ++ [Block.groupnorm lv.2, Block.conv lv.2 out_channels 3 1 1]

/-- The encoder instantiated by `AutoencoderKL.__init__` (model file lines
196-202): `in_channels=1, n_channels=64, z_channels=3, ch_mult=[1,2,2,2],
num_res_blocks=2`. -/
def encoderBlocksAKL : List Block := encoderBlocks 1 64 3 [1, 2, 2, 2] 2

/-- The decoder instantiated by `AutoencoderKL.__init__` (model file lines
204-210): `n_channels=64, z_channels=3, out_channels=1, ch_mult=[1,2,2,2],
num_res_blocks=2`. -/
def decoderBlocksAKL : List Block := decoderBlocks 64 3 1 [1, 2, 2, 2] 2

/-- Shape semantics of `AutoencoderKL.encode` (model file lines 227-242): the
encoder followed by `quant_conv_mu = nn.Conv3d(3, embed_dim, 1)` with
`embed_dim = 3`. -/
def aklEncodeShape (sh : Shape) : Option Shape :=
  (runBlocks encoderBlocksAKL sh).bind (convShape 3 3 1 1 0)

/-- Shape semantics of `AutoencoderKL.decode` (model file lines 218-221):
`post_quant_conv = nn.Conv3d(embed_dim, 3, 1)` with `embed_dim = 3`, followed
by the decoder. -/
def aklDecodeShape (zsh : Shape) : Option Shape :=
  (convShape 3 3 1 1 0 zsh).bind (runBlocks decoderBlocksAKL)

/-- Shape semantics of `decode(encode(x))`, the composition used on every
training step of `train_gradevae.py` (lines 278-280). -/
def aklRoundTripShape (sh : Shape) : Option Shape := (aklEncodeShape sh).bind aklDecodeShape

/-! ### Value-level model of `AutoencoderKL` and `ResBlock`

Tensors are real-valued families; each sub-module together with its current
weights is carried as a function-valued field, and the model value itself
plays the role of the parameter set (`state_dict`). -/

/-- Value-level model of `class AutoencoderKL` (model file lines 193-264).
`Vd` indexes input volumes, `Zd` the 3-channel latent produced by the encoder
and consumed by the decoder, `Ld` the `embed_dim`-channel latent produced by
the two quantisation heads. The five fields are the denotations of
`self.encoder`, `self.quant_conv_mu`, `self.quant_conv_log_sigma`,
`self.post_quant_conv` and `self.decoder`. -/
structure AutoencoderKL (Vd Zd Ld : Type) where
  encoderF : Tens Vd → Tens Zd
  quant_conv_mu : Tens Zd → Tens Ld
  quant_conv_log_sigma : Tens Zd → Tens Ld
  post_quant_conv : Tens Ld → Tens Zd
  decoderF : Tens Zd → Tens Vd

variable {Vd Zd Ld G O : Type}

/-- `AutoencoderKL.encode` (model file lines 227-242): `h = self.encoder(x)`,
`z_mu = self.quant_conv_mu(h)`, `return z_mu`. The log-sigma path (lines
238-240) is commented out in the source, so the result is the single mean
tensor. -/
def AutoencoderKL.encode (m : AutoencoderKL Vd Zd Ld) (x : Tens Vd) : Tens Ld :=
  m.quant_conv_mu (m.encoderF x)

/-- `AutoencoderKL.decode` (model file lines 218-221):
`z = self.post_quant_conv(z); dec = self.decoder(z); return dec`. -/
def AutoencoderKL.decode (m : AutoencoderKL Vd Zd Ld) (z : Tens Ld) : Tens Vd :=
  m.decoderF (m.post_quant_conv z)

/-- `AutoencoderKL.sampling` (model file lines 244-259): the source draws
`eps = torch.randn_like(z_sigma)` and returns `z_vae = z_mu + eps * z_sigma`.
The random draw is made explicit as the argument `eps` (of the same index set,
hence the same shape, as `z_sigma`); addition and multiplication are the
pointwise torch operations. -/
def AutoencoderKL.sampling (_m : AutoencoderKL Vd Zd Ld) (z_mu z_sigma eps : Tens Ld) :
    Tens Ld :=
  z_mu + eps * z_sigma

/-- Value-level model of `class ResBlock` (model file lines 48-80). The four
layer fields and the `nin_shortcut` are the denotations of the corresponding
sub-modules with their weights; the channel counts are carried as data and
drive the shortcut branch exactly as `self.in_channels != self.out_channels`
does (the shape-level model `resBlockShape` accounts for shapes). -/
structure ResBlock (ι : Type) where
  in_channels : Nat
  out_channels : Nat
  norm1 : Tens ι → Tens ι
  conv1 : Tens ι → Tens ι
  norm2 : Tens ι → Tens ι
  conv2 : Tens ι → Tens ι
  nin_shortcut : Tens ι → Tens ι

/-- `ResBlock.forward` (model file lines 67-80): `h = conv2(silu(norm2(conv1(
silu(norm1(x))))))`; `x` is replaced by `nin_shortcut(x)` exactly when
`in_channels != out_channels`; the result is `x + h`. -/
noncomputable def ResBlock.forward {ι : Type} (rb : ResBlock ι) (x : Tens ι) : Tens ι :=
  (if rb.in_channels ≠ rb.out_channels then rb.nin_shortcut x else x)
    + rb.conv2 (siluT (rb.norm2 (rb.conv1 (siluT (rb.norm1 x)))))

/-! ### Model of the training loop of `train_gradevae.py`

The per-batch body of `main` (lines 270-444) is embedded as a state
transformer over `TrainState`, emitting a trace of `TrainEvent`s for the side
effects (tensorboard scalar/image writes, checkpoint file writes, validation).
Automatic differentiation (`accelerator.backward`) and the AdamW parameter
update (`opt_vae.step`) belong to the external substrate and enter as the
function parameters `gradOf` and `optStepF`; `G` is the type of gradient
values, `O` the type of the optimizer state (moment estimates). The batch
passed to an iteration is the already rearranged and cropped tensor of line
277, and the validation batches are the already cropped tensors of line 370.
The image and PSNR summaries are abstracted to events. -/

/-- The fields of `cfg.train` that the loop body reads. -/
structure TrainCfg where
  log_every : Nat
  ckpt_every : Nat
  image_every : Nat
  val_every : Nat
  max_steps : Nat

/-- The mutable state of one training run: the model (`vae`), the gradient
buffers, the optimizer state, `global_step` (line 260), and the running loss
buffers `step_loss` / `epoch_loss` (lines 262-264). -/
structure TrainState (Vd Zd Ld G O : Type) where
  vae : AutoencoderKL Vd Zd Ld
  grads : Option G
  opt : O
  global_step : Nat
  step_loss : List ℝ
  epoch_loss : List ℝ

/-- Side effects the loop body performs. -/
inductive TrainEvent (Vd Zd Ld : Type) where
  | scalarLogged (step : Nat) (avg : ℝ)
  | ckptSaved (step : Nat) (checkpoint : AutoencoderKL Vd Zd Ld)
  | imageLogged (step : Nat)
  | valRan (step : Nat) (avg_loss : ℝ)

/-- Mean of a list of reals (the `accelerator.gather(...).mean().item()`
aggregation of lines 304 and 432, for a single process). -/
noncomputable def listMean (xs : List ℝ) : ℝ := xs.sum / (xs.length : ℝ)

/-- The training loss of one step as a function of the model, from lines
278-285: `z_gt = vae.module.encode(grad)`, `z_pred = vae.module.decode(z_gt)`,
`loss = torch.nn.functional.mse_loss(grad, z_pred)`. -/
noncomputable def stepLossFn [Fintype Vd] (grad : Tens Vd) (m : AutoencoderKL Vd Zd Ld) : ℝ :=
  mseLoss grad (m.decode (m.encode grad))

/-- `opt_vae.zero_grad()` (line 287): clears the gradient buffers. -/
def zeroGradPhase (s : TrainState Vd Zd Ld G O) : TrainState Vd Zd Ld G O :=
  { s with grads := none }

/-- `accelerator.backward(loss)` (line 289): stores the gradient of the step
loss, as a function of the model parameters, at the current parameters. -/
noncomputable def backwardPhase [Fintype Vd]
    (gradOf : (AutoencoderKL Vd Zd Ld → ℝ) → AutoencoderKL Vd Zd Ld → G)
    (grad : Tens Vd) (s : TrainState Vd Zd Ld G O) : TrainState Vd Zd Ld G O :=
  { s with grads := some (gradOf (stepLossFn grad) s.vae) }

/-- `opt_vae.step()` (line 291): the optimizer consumes the gradient buffers
and updates the model parameters and its own state. -/
def optStepPhase (optStepF : O → AutoencoderKL Vd Zd Ld → G → AutoencoderKL Vd Zd Ld × O)
    (s : TrainState Vd Zd Ld G O) : TrainState Vd Zd Ld G O :=
  match s.grads with
  | some g =>
    let r := optStepF s.opt s.vae g
    { s with vae := r.1, opt := r.2 }
  | none => s

/-- Lines 295-297: `global_step += 1` and the loss value appended to both
running loss buffers. -/
def bookkeepPhase (lossVal : ℝ) (s : TrainState Vd Zd Ld G O) : TrainState Vd Zd Ld G O :=
  { s with
    global_step := s.global_step + 1
    step_loss := s.step_loss ++ [lossVal]
    epoch_loss := s.epoch_loss ++ [lossVal] }

/-- Scalar logging (lines 302-307): when `global_step % log_every == 0 and
global_step > 0`, the gathered mean of `step_loss` is written and the buffer
is cleared. -/
noncomputable def logPhase (cfg : TrainCfg) (s : TrainState Vd Zd Ld G O) :
    TrainState Vd Zd Ld G O × List (TrainEvent Vd Zd Ld) :=
  if s.global_step % cfg.log_every = 0 ∧ 0 < s.global_step then
    ({ s with step_loss := [] }, [TrainEvent.scalarLogged s.global_step (listMean s.step_loss)])
  else (s, [])

/-- `checkpoint = vae.state_dict()` (line 312): the data written to the
checkpoint file is the model parameters. -/
def checkpointOf (s : TrainState Vd Zd Ld G O) : AutoencoderKL Vd Zd Ld := s.vae

/-- Checkpoint saving (lines 309-314): when `global_step % ckpt_every == 0 and
global_step > 0`, `vae.state_dict()` is written to
`{ckpt_dir}/{global_step:07d}_gradvae.pt`. -/
def ckptPhase (cfg : TrainCfg) (s : TrainState Vd Zd Ld G O) :
    TrainState Vd Zd Ld G O × List (TrainEvent Vd Zd Ld) :=
  if s.global_step % cfg.ckpt_every = 0 ∧ 0 < s.global_step then
    (s, [TrainEvent.ckptSaved s.global_step (checkpointOf s)])
  else (s, [])

/-- Image logging (lines 317-356): when `global_step % image_every == 0 or
global_step == 1`, middle slices of prediction and ground truth are written. -/
def imagePhase (cfg : TrainCfg) (s : TrainState Vd Zd Ld G O) :
    TrainState Vd Zd Ld G O × List (TrainEvent Vd Zd Ld) :=
  if s.global_step % cfg.image_every = 0 ∨ s.global_step = 1 then
    (s, [TrainEvent.imageLogged s.global_step])
  else (s, [])

/-- Validation (lines 359-442): when `global_step % val_every == 0 and
global_step > 0`, each validation batch is encoded and decoded under
`torch.no_grad()`, its MSE recorded, and the gathered means written; the model
is only read. -/
noncomputable def valPhase [Fintype Vd] (cfg : TrainCfg) (valBatches : List (Tens Vd))
    (s : TrainState Vd Zd Ld G O) :
    TrainState Vd Zd Ld G O × List (TrainEvent Vd Zd Ld) :=
  if s.global_step % cfg.val_every = 0 ∧ 0 < s.global_step then
    (s, [TrainEvent.valRan s.global_step
          (listMean (valBatches.map fun v => mseLoss v (s.vae.decode (s.vae.encode v))))])
  else (s, [])

/-- One iteration of the inner `for grad in loader` body (lines 272-444), in
source order: forward and loss (278-285), `zero_grad` (287), `backward` (289),
optimizer step (291), bookkeeping (295-297), scalar logging (302-307),
checkpoint saving (309-314), image logging (317-356), validation (359-442). -/
noncomputable def loopIter [Fintype Vd] (cfg : TrainCfg)
    (gradOf : (AutoencoderKL Vd Zd Ld → ℝ) → AutoencoderKL Vd Zd Ld → G)
    (optStepF : O → AutoencoderKL Vd Zd Ld → G → AutoencoderKL Vd Zd Ld × O)
    (valBatches : List (Tens Vd))
    (s : TrainState Vd Zd Ld G O) (grad : Tens Vd) :
    TrainState Vd Zd Ld G O × List (TrainEvent Vd Zd Ld) :=
  let lossVal := stepLossFn grad s.vae
  let s4 := bookkeepPhase lossVal
    (optStepPhase optStepF (backwardPhase gradOf grad (zeroGradPhase s)))
  let l := logPhase cfg s4
  let c := ckptPhase cfg l.1
  let i := imagePhase cfg c.1
  let v := valPhase cfg valBatches i.1
  (v.1, l.2 ++ c.2 ++ i.2 ++ v.2)

/-- The inner loop run over a list of batches, accumulating the event trace. -/
noncomputable def runLoop [Fintype Vd] (cfg : TrainCfg)
    (gradOf : (AutoencoderKL Vd Zd Ld → ℝ) → AutoencoderKL Vd Zd Ld → G)
    (optStepF : O → AutoencoderKL Vd Zd Ld → G → AutoencoderKL Vd Zd Ld × O)
    (valBatches : List (Tens Vd)) :
    TrainState Vd Zd Ld G O → List (Tens Vd) →
    TrainState Vd Zd Ld G O × List (TrainEvent Vd Zd Ld)
  | s, [] => (s, [])
  | s, g :: gs =>
    let r1 := loopIter cfg gradOf optStepF valBatches s g
    let r2 := runLoop cfg gradOf optStepF valBatches r1.1 gs
    (r2.1, r1.2 ++ r2.2)

/-- The steps at which a checkpoint file was written, read off an event
trace. -/
def ckptSteps (evs : List (TrainEvent Vd Zd Ld)) : List Nat :=
  evs.filterMap fun e =>
    match e with
    | TrainEvent.ckptSaved k _ => some k
    | _ => none

/-! Concrete instances used by the closed witness theorems. -/

/-- A concrete `AutoencoderKL` value over singleton index sets. -/
def vae0 : AutoencoderKL Unit Unit Unit :=
  ⟨fun _ => fun _ => 0, fun t => t, fun t => t, fun t => t, fun _ => fun _ => 0⟩

/-- A concrete configuration with `ckpt_every = 2`. -/
def cfg0 : TrainCfg := ⟨1, 2, 1, 1, 5⟩

/-- A concrete initial training state with `global_step = 0`. -/
def s0 : TrainState Unit Unit Unit Unit Unit := ⟨vae0, none, (), 0, [], []⟩

/-- A concrete training state (used to compare checkpoints). -/
def sA : TrainState Unit Unit Unit Unit Nat := ⟨vae0, none, 0, 0, [], []⟩

/-- A training state with the same model as `sA` but different step counter,
optimizer state and loss buffer. -/
def sB : TrainState Unit Unit Unit Unit Nat := ⟨vae0, none, 1, 1, [0], []⟩

/-- A trivial differentiation substrate over `Unit` gradients. -/
def gradOf0 : (AutoencoderKL Unit Unit Unit → ℝ) → AutoencoderKL Unit Unit Unit → Unit :=
  fun _ _ => ()

/-- A trivial optimizer substrate. -/
def optStep0 : Unit → AutoencoderKL Unit Unit Unit → Unit → AutoencoderKL Unit Unit Unit × Unit :=
  fun o m _ => (m, o)

/-- Three concrete batches. -/
def batches0 : List (Tens Unit) := [fun _ => 0, fun _ => 0, fun _ => 0]

/-- A concrete residual block with equal channel counts. -/
def rbEq : ResBlock Unit := ⟨64, 64, id, id, id, id, id⟩

/-- A concrete residual block with differing channel counts. -/
def rbNe : ResBlock Unit := ⟨64, 128, id, id, id, id, id⟩

/-! ### Name resolution in `OnlyEncoder.__init__`

A minimal model of Python's name lookup (locals, then module globals, then
builtins) for the identifiers the method body loads. -/

/-- The identifiers relevant to name resolution in
`models/aekl_no_attention.py`. -/
inductive PyName where
  | torchName
  | nnName
  | functionalName
  | tupleName
  | diagonalGaussianName
  | swishName
  | normalizeName
  | upsampleName
  | downsampleName
  | resBlockName
  | encoderName
  | decoderName
  | autoencoderKLName
  | onlyDecoderName
  | onlyEncoderName
  | selfName
  | superName
  | embed_dim
  deriving DecidableEq, Repr

/-- The names bound at module level of `models/aekl_no_attention.py`: the
imports `torch`, `nn`, `F`, `Tuple`, `DiagonalGaussianDistribution` (lines
4-9), the functions `swish` and `Normalize` (lines 12-18), and the classes
`Upsample`, `Downsample`, `ResBlock`, `Encoder`, `Decoder`, `AutoencoderKL`,
`OnlyDecoder`, `OnlyEncoder`. No module-level binding of `embed_dim` exists
(it occurs only as a parameter and attribute of `AutoencoderKL.__init__`,
which is not an enclosing scope of `OnlyEncoder.__init__`). -/
def moduleScope : List PyName :=
  [PyName.torchName, PyName.nnName, PyName.functionalName, PyName.tupleName,
   PyName.diagonalGaussianName, PyName.swishName, PyName.normalizeName,
   PyName.upsampleName, PyName.downsampleName, PyName.resBlockName,
   PyName.encoderName, PyName.decoderName, PyName.autoencoderKLName,
   PyName.onlyDecoderName, PyName.onlyEncoderName]

/-- The builtins the method body uses. -/
def builtinScope : List PyName := [PyName.superName]

/-- Python name lookup: locals, then module globals, then builtins. -/
def resolves (locals : List PyName) (n : PyName) : Bool :=
  decide (n ∈ locals ∨ n ∈ moduleScope ∨ n ∈ builtinScope)

/-- The non-local identifiers loaded by `OnlyEncoder.__init__` (model file
lines 283-292), in evaluation order: `super` (line 284), `Encoder` (line 285),
`torch` (line 292), and `embed_dim` (line 292, second argument of
`torch.nn.Conv3d(3, embed_dim, 1)`). -/
def onlyEncoderInitLoads : List PyName :=
  [PyName.superName, PyName.encoderName, PyName.torchName, PyName.embed_dim]

/-- The local names of `OnlyEncoder.__init__`: only the parameter `self`. -/
def onlyEncoderInitLocals : List PyName := [PyName.selfName]

/-- Evaluating `OnlyEncoder()` (model file lines 282-292): the body's name
loads are resolved in order; the first unresolvable name raises `NameError`
(returned as `Except.error`), otherwise construction succeeds. -/
def OnlyEncoder.construct : Except PyName Unit :=
  match onlyEncoderInitLoads.find? (fun n => ! resolves onlyEncoderInitLocals n) with
  | some n => Except.error n
  | none => Except.ok ()

/-! ### Shape lemmas -/

lemma obind_some {α β : Type} (a : α) (f : α → Option β) : (Option.some a).bind f = f a := rfl

lemma runBlocks_step {blk : Block} {bs : List Block} {sh sh2 : Shape}
    (h : blockShape blk sh = some sh2) : runBlocks (blk :: bs) sh = runBlocks bs sh2 := by
  show (blockShape blk sh).bind (runBlocks bs) = runBlocks bs sh2
  rw [h]
  rfl

lemma convShape_eval (cin cout bb d h w : Nat) (hd : 1 ≤ d) (hh : 1 ≤ h) (hw : 1 ≤ w) :
    convShape cin cout 3 1 1 ⟨bb, cin, d, h, w⟩ = some ⟨bb, cout, d, h, w⟩ := by
  unfold convShape convDim
  dsimp only
  split
  · simp only [Option.some.injEq, Shape.mk.injEq]
    refine ⟨trivial, trivial, ?_, ?_, ?_⟩ <;> omega
  · rename_i hc
    exact absurd ⟨rfl, by omega, by omega, by omega, by omega⟩ hc

lemma convShape_eval1 (cin cout bb d h w : Nat) (hd : 1 ≤ d) (hh : 1 ≤ h) (hw : 1 ≤ w) :
    convShape cin cout 1 1 0 ⟨bb, cin, d, h, w⟩ = some ⟨bb, cout, d, h, w⟩ := by
  unfold convShape convDim
  dsimp only
  split
  · simp only [Option.some.injEq, Shape.mk.injEq]
    refine ⟨trivial, trivial, ?_, ?_, ?_⟩ <;> omega
  · rename_i hc
    exact absurd ⟨rfl, by omega, by omega, by omega, by omega⟩ hc

lemma gnShape_eval (c bb d h w : Nat) (h32 : 32 ∣ c) :
    groupNormShape c ⟨bb, c, d, h, w⟩ = some ⟨bb, c, d, h, w⟩ := by
  unfold groupNormShape
  dsimp only
  split
  · rfl
  · rename_i hc
    exact absurd ⟨rfl, h32⟩ hc

lemma blockShape_conv3 (cin cout bb d h w : Nat) (hd : 1 ≤ d) (hh : 1 ≤ h) (hw : 1 ≤ w) :
    blockShape (Block.conv cin cout 3 1 1) ⟨bb, cin, d, h, w⟩ = some ⟨bb, cout, d, h, w⟩ :=
  convShape_eval cin cout bb d h w hd hh hw

lemma blockShape_gn (c bb d h w : Nat) (h32 : 32 ∣ c) :
    blockShape (Block.groupnorm c) ⟨bb, c, d, h, w⟩ = some ⟨bb, c, d, h, w⟩ :=
  gnShape_eval c bb d h w h32

lemma blockShape_down (c bb d h w d2 h2 w2 : Nat)
    (hdd : d = 2 * d2) (hhh : h = 2 * h2) (hww : w = 2 * w2)
    (hd2 : 1 ≤ d2) (hh2 : 1 ≤ h2) (hw2 : 1 ≤ w2) :
    blockShape (Block.downsample c) ⟨bb, c, d, h, w⟩ = some ⟨bb, c, d2, h2, w2⟩ := by
  show convShape c c 3 2 0 (padOneShape ⟨bb, c, d, h, w⟩) = some ⟨bb, c, d2, h2, w2⟩
  unfold padOneShape convShape convDim
  dsimp only
  split
  · simp only [Option.some.injEq, Shape.mk.injEq]
    refine ⟨trivial, trivial, ?_, ?_, ?_⟩ <;> omega
  · rename_i hc
    exact absurd ⟨rfl, by omega, by omega, by omega, by omega⟩ hc

lemma blockShape_up (c bb d h w d2 h2 w2 : Nat)
    (hdd : d2 = 2 * d) (hhh : h2 = 2 * h) (hww : w2 = 2 * w)
    (hd : 1 ≤ d) (hh : 1 ≤ h) (hw : 1 ≤ w) :
    blockShape (Block.upsample c) ⟨bb, c, d, h, w⟩ = some ⟨bb, c, d2, h2, w2⟩ := by
  show convShape c c 3 1 1 (interpolate2Shape ⟨bb, c, d, h, w⟩) = some ⟨bb, c, d2, h2, w2⟩
  unfold interpolate2Shape convShape convDim
  dsimp only
  split
  · simp only [Option.some.injEq, Shape.mk.injEq]
    refine ⟨trivial, trivial, ?_, ?_, ?_⟩ <;> omega
  · rename_i hc
    exact absurd ⟨rfl, by omega, by omega, by omega, by omega⟩ hc

lemma blockShape_res (cin cout bb d h w : Nat) (h32i : 32 ∣ cin) (h32o : 32 ∣ cout)
    (hd : 1 ≤ d) (hh : 1 ≤ h) (hw : 1 ≤ w) :
    blockShape (Block.resblock cin cout) ⟨bb, cin, d, h, w⟩ = some ⟨bb, cout, d, h, w⟩ := by
  show resBlockShape cin cout ⟨bb, cin, d, h, w⟩ = some ⟨bb, cout, d, h, w⟩
  unfold resBlockShape
  simp only [gnShape_eval cin bb d h w h32i, obind_some,
    convShape_eval cin cout bb d h w hd hh hw,
    gnShape_eval cout bb d h w h32o,
    convShape_eval cout cout bb d h w hd hh hw]
  by_cases hcc : cin = cout
  · subst hcc
    simp
  · simp only [if_pos hcc, convShape_eval1 cin cout bb d h w hd hh hw, obind_some]
    simp

lemma gn_preserve {c : Nat} {sh sh2 : Shape} (h : groupNormShape c sh = some sh2) :
    sh2 = sh := by
  unfold groupNormShape at h
  split at h
  · exact (Option.some.inj h).symm
  · simp at h

lemma convShape_preserve {cin cout k s p : Nat} {sh sh2 : Shape}
    (h : convShape cin cout k s p sh = some sh2)
    (hk : k = 2 * p + 1) (hs : s = 1) :
    sh2.d = sh.d ∧ sh2.h = sh.h ∧ sh2.w = sh.w := by
  subst hk
  subst hs
  unfold convShape convDim at h
  split at h
  · rename_i hc
    have h2 := (Option.some.inj h).symm
    subst h2
    obtain ⟨h1, h2', h3, h4, h5⟩ := hc
    refine ⟨?_, ?_, ?_⟩ <;> · dsimp only; omega
  · simp at h

lemma res_preserve {cin cout : Nat} {sh sh2 : Shape}
    (h : blockShape (Block.resblock cin cout) sh = some sh2) :
    sh2.d = sh.d ∧ sh2.h = sh.h ∧ sh2.w = sh.w := by
  have h' : resBlockShape cin cout sh = some sh2 := h
  unfold resBlockShape at h'
  cases hg1 : groupNormShape cin sh with
  | none => rw [hg1] at h'; simp at h'
  | some s1 =>
  rw [hg1] at h'
  simp only [obind_some] at h'
  cases hc1 : convShape cin cout 3 1 1 s1 with
  | none => rw [hc1] at h'; simp at h'
  | some s2 =>
  rw [hc1] at h'
  simp only [obind_some] at h'
  cases hg2 : groupNormShape cout s2 with
  | none => rw [hg2] at h'; simp at h'
  | some s3 =>
  rw [hg2] at h'
  simp only [obind_some] at h'
  cases hc2 : convShape cout cout 3 1 1 s3 with
  | none => rw [hc2] at h'; simp at h'
  | some s4 =>
  rw [hc2] at h'
  simp only [obind_some] at h'
  have hs4 : sh2 = s4 := by
    cases hx : (if cin ≠ cout then convShape cin cout 1 1 0 sh else some sh) with
    | none => rw [hx] at h'; simp at h'
    | some xs =>
      rw [hx] at h'
      simp only [obind_some] at h'
      by_cases hxe : xs = s4
      · rw [if_pos hxe] at h'
        exact (Option.some.inj h').symm
      · rw [if_neg hxe] at h'
        simp at h'
  subst hs4
  have e1 := gn_preserve hg1
  subst e1
  have e3 := gn_preserve hg2
  subst e3
  have e2 := convShape_preserve hc1 rfl rfl
  have e4 := convShape_preserve hc2 rfl rfl
  obtain ⟨a1, a2, a3⟩ := e2
  obtain ⟨b1, b2, b3⟩ := e4
  refine ⟨?_, ?_, ?_⟩ <;> omega

lemma encoderBlocksAKL_eq :
    encoderBlocksAKL =
      [Block.conv 1 64 3 1 1,
       Block.resblock 64 64, Block.resblock 64 64, Block.downsample 64,
       Block.resblock 64 128, Block.resblock 128 128, Block.downsample 128,
       Block.resblock 128 128, Block.resblock 128 128, Block.downsample 128,
       Block.resblock 128 128, Block.resblock 128 128,
       Block.groupnorm 128, Block.conv 128 3 3 1 1] := by
  decide

lemma decoderBlocksAKL_eq :
    decoderBlocksAKL =
      [Block.conv 3 128 3 1 1,
       Block.resblock 128 128, Block.resblock 128 128, Block.upsample 128,
       Block.resblock 128 128, Block.resblock 128 128, Block.upsample 128,
       Block.resblock 128 128, Block.resblock 128 128, Block.upsample 128,
       Block.resblock 128 64, Block.resblock 64 64,
       Block.groupnorm 64, Block.conv 64 1 3 1 1] := by
  decide

/-- The encoder of `AutoencoderKL` on an input of spatial size
`(8p, 8q, 8r)`: three halvings down to `(p, q, r)` and `z_channels = 3`
output channels. -/
lemma encRun (B p q r : Nat) (hp : 1 ≤ p) (hq : 1 ≤ q) (hr : 1 ≤ r) :
    runBlocks encoderBlocksAKL ⟨B, 1, 8 * p, 8 * q, 8 * r⟩ = some ⟨B, 3, p, q, r⟩ := by
  rw [encoderBlocksAKL_eq,
    runBlocks_step (blockShape_conv3 1 64 B (8 * p) (8 * q) (8 * r)
      (by omega) (by omega) (by omega)),
    runBlocks_step (blockShape_res 64 64 B (8 * p) (8 * q) (8 * r)
      (by omega) (by omega) (by omega) (by omega) (by omega)),
    runBlocks_step (blockShape_res 64 64 B (8 * p) (8 * q) (8 * r)
      (by omega) (by omega) (by omega) (by omega) (by omega)),
    runBlocks_step (blockShape_down 64 B (8 * p) (8 * q) (8 * r) (4 * p) (4 * q) (4 * r)
      (by omega) (by omega) (by omega) (by omega) (by omega) (by omega)),
    runBlocks_step (blockShape_res 64 128 B (4 * p) (4 * q) (4 * r)
      (by omega) (by omega) (by omega) (by omega) (by omega)),
    runBlocks_step (blockShape_res 128 128 B (4 * p) (4 * q) (4 * r)
      (by omega) (by omega) (by omega) (by omega) (by omega)),
    runBlocks_step (blockShape_down 128 B (4 * p) (4 * q) (4 * r) (2 * p) (2 * q) (2 * r)
      (by omega) (by omega) (by omega) (by omega) (by omega) (by omega)),
    runBlocks_step (blockShape_res 128 128 B (2 * p) (2 * q) (2 * r)
      (by omega) (by omega) (by omega) (by omega) (by omega)),
    runBlocks_step (blockShape_res 128 128 B (2 * p) (2 * q) (2 * r)
      (by omega) (by omega) (by omega) (by omega) (by omega)),
    runBlocks_step (blockShape_down 128 B (2 * p) (2 * q) (2 * r) p q r
      (by omega) (by omega) (by omega) (by omega) (by omega) (by omega)),
    runBlocks_step (blockShape_res 128 128 B p q r
      (by omega) (by omega) hp hq hr),
    runBlocks_step (blockShape_res 128 128 B p q r
      (by omega) (by omega) hp hq hr),
    runBlocks_step (blockShape_gn 128 B p q r (by omega)),
    runBlocks_step (blockShape_conv3 128 3 B p q r hp hq hr)]
  rfl

/-- The decoder of `AutoencoderKL` on a latent of spatial size `(p, q, r)`:
three doublings up to `(8p, 8q, 8r)` and `out_channels = 1`. -/
lemma decRun (B p q r : Nat) (hp : 1 ≤ p) (hq : 1 ≤ q) (hr : 1 ≤ r) :
    runBlocks decoderBlocksAKL ⟨B, 3, p, q, r⟩ = some ⟨B, 1, 8 * p, 8 * q, 8 * r⟩ := by
  rw [decoderBlocksAKL_eq,
    runBlocks_step (blockShape_conv3 3 128 B p q r hp hq hr),
    runBlocks_step (blockShape_res 128 128 B p q r
      (by omega) (by omega) hp hq hr),
    runBlocks_step (blockShape_res 128 128 B p q r
      (by omega) (by omega) hp hq hr),
    runBlocks_step (blockShape_up 128 B p q r (2 * p) (2 * q) (2 * r)
      rfl rfl rfl hp hq hr),
    runBlocks_step (blockShape_res 128 128 B (2 * p) (2 * q) (2 * r)
      (by omega) (by omega) (by omega) (by omega) (by omega)),
    runBlocks_step (blockShape_res 128 128 B (2 * p) (2 * q) (2 * r)
      (by omega) (by omega) (by omega) (by omega) (by omega)),
    runBlocks_step (blockShape_up 128 B (2 * p) (2 * q) (2 * r) (4 * p) (4 * q) (4 * r)
      (by omega) (by omega) (by omega) (by omega) (by omega) (by omega)),
    runBlocks_step (blockShape_res 128 128 B (4 * p) (4 * q) (4 * r)
      (by omega) (by omega) (by omega) (by omega) (by omega)),
    runBlocks_step (blockShape_res 128 128 B (4 * p) (4 * q) (4 * r)
      (by omega) (by omega) (by omega) (by omega) (by omega)),
    runBlocks_step (blockShape_up 128 B (4 * p) (4 * q) (4 * r) (8 * p) (8 * q) (8 * r)
      (by omega) (by omega) (by omega) (by omega) (by omega) (by omega)),
    runBlocks_step (blockShape_res 128 64 B (8 * p) (8 * q) (8 * r)
      (by omega) (by omega) (by omega) (by omega) (by omega)),
    runBlocks_step (blockShape_res 64 64 B (8 * p) (8 * q) (8 * r)
      (by omega) (by omega) (by omega) (by omega) (by omega)),
    runBlocks_step (blockShape_gn 64 B (8 * p) (8 * q) (8 * r) (by omega)),
    runBlocks_step (blockShape_conv3 64 1 B (8 * p) (8 * q) (8 * r)
      (by omega) (by omega) (by omega))]
  rfl

/-! ### Training-loop phase lemmas -/

lemma ckptPhase_fst (cfg : TrainCfg) (s : TrainState Vd Zd Ld G O) :
    (ckptPhase cfg s).1 = s := by
  unfold ckptPhase
  split <;> rfl

lemma imagePhase_fst (cfg : TrainCfg) (s : TrainState Vd Zd Ld G O) :
    (imagePhase cfg s).1 = s := by
  unfold imagePhase
  split <;> rfl

lemma valPhase_fst [Fintype Vd] (cfg : TrainCfg) (valBatches : List (Tens Vd))
    (s : TrainState Vd Zd Ld G O) : (valPhase cfg valBatches s).1 = s := by
  unfold valPhase
  split <;> rfl

lemma logPhase_fst_vae (cfg : TrainCfg) (s : TrainState Vd Zd Ld G O) :
    (logPhase cfg s).1.vae = s.vae := by
  unfold logPhase
  split <;> rfl

lemma logPhase_fst_grads (cfg : TrainCfg) (s : TrainState Vd Zd Ld G O) :
    (logPhase cfg s).1.grads = s.grads := by
  unfold logPhase
  split <;> rfl

lemma logPhase_fst_epoch (cfg : TrainCfg) (s : TrainState Vd Zd Ld G O) :
    (logPhase cfg s).1.epoch_loss = s.epoch_loss := by
  unfold logPhase
  split <;> rfl

lemma logPhase_fst_global (cfg : TrainCfg) (s : TrainState Vd Zd Ld G O) :
    (logPhase cfg s).1.global_step = s.global_step := by
  unfold logPhase
  split <;> rfl

lemma loopIter_global_step [Fintype Vd] (cfg : TrainCfg)
    (gradOf : (AutoencoderKL Vd Zd Ld → ℝ) → AutoencoderKL Vd Zd Ld → G)
    (optStepF : O → AutoencoderKL Vd Zd Ld → G → AutoencoderKL Vd Zd Ld × O)
    (valBatches : List (Tens Vd)) (s : TrainState Vd Zd Ld G O) (grad : Tens Vd) :
    (loopIter cfg gradOf optStepF valBatches s grad).1.global_step = s.global_step + 1 := by
  simp only [loopIter]
  rw [valPhase_fst, imagePhase_fst, ckptPhase_fst, logPhase_fst_global]
  rfl

lemma ckptSteps_append (l1 l2 : List (TrainEvent Vd Zd Ld)) :
    ckptSteps (l1 ++ l2) = ckptSteps l1 ++ ckptSteps l2 := by
  simp [ckptSteps]

lemma ckptSteps_logPhase (cfg : TrainCfg) (s : TrainState Vd Zd Ld G O) :
    ckptSteps (logPhase cfg s).2 = [] := by
  unfold logPhase
  split <;> simp [ckptSteps]

lemma ckptSteps_imagePhase (cfg : TrainCfg) (s : TrainState Vd Zd Ld G O) :
    ckptSteps (imagePhase cfg s).2 = [] := by
  unfold imagePhase
  split <;> simp [ckptSteps]

lemma ckptSteps_valPhase [Fintype Vd] (cfg : TrainCfg) (valBatches : List (Tens Vd))
    (s : TrainState Vd Zd Ld G O) : ckptSteps (valPhase cfg valBatches s).2 = [] := by
  unfold valPhase
  split <;> simp [ckptSteps]

lemma ckptSteps_ckptPhase (cfg : TrainCfg) (s : TrainState Vd Zd Ld G O) :
    ckptSteps (ckptPhase cfg s).2 =
      if s.global_step % cfg.ckpt_every = 0 ∧ 0 < s.global_step then [s.global_step]
      else [] := by
  unfold ckptPhase
  split <;> simp_all [ckptSteps]

lemma loopIter_ckptSteps [Fintype Vd] (cfg : TrainCfg)
    (gradOf : (AutoencoderKL Vd Zd Ld → ℝ) → AutoencoderKL Vd Zd Ld → G)
    (optStepF : O → AutoencoderKL Vd Zd Ld → G → AutoencoderKL Vd Zd Ld × O)
    (valBatches : List (Tens Vd)) (s : TrainState Vd Zd Ld G O) (grad : Tens Vd) :
    ckptSteps (loopIter cfg gradOf optStepF valBatches s grad).2 =
      if (s.global_step + 1) % cfg.ckpt_every = 0 then [s.global_step + 1] else [] := by
  simp only [loopIter]
  rw [ckptSteps_append, ckptSteps_append, ckptSteps_append,
    ckptSteps_logPhase, ckptSteps_imagePhase, ckptSteps_valPhase, ckptSteps_ckptPhase,
    logPhase_fst_global]
  simp only [List.nil_append, List.append_nil]
  show (if ((s.global_step + 1) % cfg.ckpt_every = 0 ∧ 0 < s.global_step + 1)
      then [s.global_step + 1] else []) = _
  by_cases hmod : (s.global_step + 1) % cfg.ckpt_every = 0
  · rw [if_pos ⟨hmod, Nat.succ_pos _⟩, if_pos hmod]
  · rw [if_neg ?_, if_neg hmod]
    intro hc
    exact hmod hc.1

lemma runLoop_ckpt_mem [Fintype Vd] (cfg : TrainCfg)
    (gradOf : (AutoencoderKL Vd Zd Ld → ℝ) → AutoencoderKL Vd Zd Ld → G)
    (optStepF : O → AutoencoderKL Vd Zd Ld → G → AutoencoderKL Vd Zd Ld × O)
    (valBatches : List (Tens Vd)) :
    ∀ (gs : List (Tens Vd)) (s : TrainState Vd Zd Ld G O) (k : Nat),
      k ∈ ckptSteps (runLoop cfg gradOf optStepF valBatches s gs).2 ↔
        (s.global_step < k ∧ k ≤ s.global_step + gs.length ∧ k % cfg.ckpt_every = 0) := by
  intro gs
  induction gs with
  | nil =>
    intro s k
    simp only [runLoop, List.length_nil]
    simp [ckptSteps]
    omega
  | cons g gs ih =>
    intro s k
    simp only [runLoop, List.length_cons]
    rw [ckptSteps_append, List.mem_append, loopIter_ckptSteps, ih]
    rw [loopIter_global_step]
    constructor
    · rintro (hin | ⟨h1, h2, h3⟩)
      · by_cases hmod : (s.global_step + 1) % cfg.ckpt_every = 0
        · rw [if_pos hmod] at hin
          simp only [List.mem_singleton] at hin
          subst hin
          exact ⟨by omega, by omega, hmod⟩
        · rw [if_neg hmod] at hin
          simp at hin
      · exact ⟨by omega, by omega, h3⟩
    · rintro ⟨h1, h2, h3⟩
      by_cases hk : k = s.global_step + 1
      · left
        subst hk
        rw [if_pos h3]
        simp
      · right
        exact ⟨by omega, by omega, h3⟩

/-! ### The claims -/

/-- C1 (status: code bug in the source). The claim says `AutoencoderKL.encode`
returns the pair `(z_mu, z_sigma)`, as the method's own docstring and its
`tuple[torch.Tensor, torch.Tensor]` return annotation state; the body (model
file line 242) returns only `z_mu`. This theorem pins down what the code does:
the result of `encode` is the single mean-head tensor
`quant_conv_mu(encoder(x))`, and it is entirely independent of the sigma head
`quant_conv_log_sigma` — replacing that head by any function `f` leaves the
result unchanged, so no sigma representation is produced. -/
theorem C1_encode_returns_only_mean (m : AutoencoderKL Vd Zd Ld)
    (f : Tens Zd → Tens Ld) (x : Tens Vd) :
    m.encode x = m.quant_conv_mu (m.encoderF x) ∧
    AutoencoderKL.encode { m with quant_conv_log_sigma := f } x = m.encode x :=
  ⟨rfl, rfl⟩

/-- C2: on every training step, the loss that is back-propagated (the gradient
stored by `accelerator.backward`) and recorded is exactly the mean-squared
error between the input batch volume and its reconstruction
`decode(encode(input))` — no KL or perceptual term is added. -/
theorem C2_training_loss_is_pure_mse [Fintype Vd] (cfg : TrainCfg)
    (gradOf : (AutoencoderKL Vd Zd Ld → ℝ) → AutoencoderKL Vd Zd Ld → G)
    (optStepF : O → AutoencoderKL Vd Zd Ld → G → AutoencoderKL Vd Zd Ld × O)
    (valBatches : List (Tens Vd)) (s : TrainState Vd Zd Ld G O) (grad : Tens Vd) :
    (loopIter cfg gradOf optStepF valBatches s grad).1.epoch_loss
      = s.epoch_loss ++ [mseLoss grad (s.vae.decode (s.vae.encode grad))] ∧
    (loopIter cfg gradOf optStepF valBatches s grad).1.grads
      = some (gradOf (fun m => mseLoss grad (m.decode (m.encode grad))) s.vae) := by
  constructor
  · simp only [loopIter]
    rw [valPhase_fst, imagePhase_fst, ckptPhase_fst, logPhase_fst_epoch]
    rfl
  · simp only [loopIter]
    rw [valPhase_fst, imagePhase_fst, ckptPhase_fst, logPhase_fst_grads]
    rfl

/-- C3 counterexample: the claim says the global step counter, the running
loss buffers and the optimizer moment estimates are included in the
checkpoint. Here are two training states that differ in step counter,
optimizer state and loss buffer, yet produce identical checkpoints — the
checkpoint (`vae.state_dict()`, line 312) carries none of them. -/
theorem C3_counterexample :
    checkpointOf sA = checkpointOf sB ∧
    (sA.global_step == sB.global_step) = false ∧
    (sA.opt == sB.opt) = false ∧
    (sA.step_loss.length == sB.step_loss.length) = false :=
  ⟨rfl, rfl, rfl, rfl⟩

/-- C3 amended: the checkpoint written during training contains exactly the
model parameters (`vae.state_dict()`); it is a function of the model state
alone — any two training states with the same model produce the same
checkpoint, whatever their step counters, loss buffers or optimizer states. -/
theorem C3_checkpoint_is_model_only (s t : TrainState Vd Zd Ld G O)
    (h : s.vae = t.vae) :
    checkpointOf s = s.vae ∧ checkpointOf s = checkpointOf t := by
  refine ⟨rfl, ?_⟩
  unfold checkpointOf
  rw [h]

/-- Witness for `C3_checkpoint_is_model_only` at the concrete states `sA`,
`sB`. -/
theorem C3_witness :
    sA.vae = sB.vae ∧ (checkpointOf sA = sA.vae ∧ checkpointOf sA = checkpointOf sB) :=
  ⟨rfl, C3_checkpoint_is_model_only sA sB rfl⟩

/-- C4: `ResBlock.forward` applies normalization, silu nonlinearity and
convolution twice, giving `h = conv2(silu(norm2(conv1(silu(norm1(x))))))`,
and adds the skip connection: the output is `x + h` when the channel counts
agree, and `nin_shortcut(x) + h` when they differ. -/
theorem C4_resblock_forward {ι : Type} (rb : ResBlock ι) (x : Tens ι) :
    (rb.in_channels = rb.out_channels →
      rb.forward x = x + rb.conv2 (siluT (rb.norm2 (rb.conv1 (siluT (rb.norm1 x)))))) ∧
    (rb.in_channels ≠ rb.out_channels →
      rb.forward x = rb.nin_shortcut x
        + rb.conv2 (siluT (rb.norm2 (rb.conv1 (siluT (rb.norm1 x)))))) := by
  constructor
  · intro h
    unfold ResBlock.forward
    rw [if_neg (not_not_intro h)]
  · intro h
    unfold ResBlock.forward
    rw [if_pos h]

/-- Witness for `C4_resblock_forward` at concrete residual blocks with equal
(64, 64) and differing (64, 128) channel counts. -/
theorem C4_witness :
    rbEq.in_channels = rbEq.out_channels ∧
    rbEq.forward 0 = 0 + rbEq.conv2 (siluT (rbEq.norm2 (rbEq.conv1 (siluT (rbEq.norm1 0))))) ∧
    rbNe.forward 0 = rbNe.nin_shortcut 0
      + rbNe.conv2 (siluT (rbNe.norm2 (rbNe.conv1 (siluT (rbNe.norm1 0))))) :=
  ⟨rfl, (C4_resblock_forward rbEq 0).1 rfl, (C4_resblock_forward rbNe 0).2 (by decide)⟩

/-- C5: on an input volume whose spatial dimensions are all divisible by 8,
the encoder instantiated by `AutoencoderKL` produces a latent with
`z_channels = 3` channels and each spatial dimension exactly one eighth of the
input's; moreover each `Downsample` (trailing-edge zero-pad, then stride-2
kernel-3 convolution) halves every even positive spatial dimension, and every
non-`Downsample` encoder block preserves spatial size. -/
theorem C5_encoder_eighth_resolution (B d h w : Nat)
    (hd8 : 8 ∣ d) (hh8 : 8 ∣ h) (hw8 : 8 ∣ w)
    (hd0 : 0 < d) (hh0 : 0 < h) (hw0 : 0 < w) :
    runBlocks encoderBlocksAKL ⟨B, 1, d, h, w⟩ = some ⟨B, 3, d / 8, h / 8, w / 8⟩ ∧
    (∀ c bb d2 h2 w2 : Nat, 2 ∣ d2 → 2 ∣ h2 → 2 ∣ w2 → 0 < d2 → 0 < h2 → 0 < w2 →
      blockShape (Block.downsample c) ⟨bb, c, d2, h2, w2⟩
        = some ⟨bb, c, d2 / 2, h2 / 2, w2 / 2⟩) ∧
    (∀ blk ∈ encoderBlocksAKL, isDownsample blk = false →
      ∀ sh sh2 : Shape, blockShape blk sh = some sh2 →
        sh2.d = sh.d ∧ sh2.h = sh.h ∧ sh2.w = sh.w) := by
  refine ⟨?_, ?_, ?_⟩
  · obtain ⟨p, rfl⟩ := hd8
    obtain ⟨q, rfl⟩ := hh8
    obtain ⟨r, rfl⟩ := hw8
    have e1 : 8 * p / 8 = p := by omega
    have e2 : 8 * q / 8 = q := by omega
    have e3 : 8 * r / 8 = r := by omega
    rw [e1, e2, e3]
    exact encRun B p q r (by omega) (by omega) (by omega)
  · intro c bb d2 h2 w2 hdd hhh hww hd2 hh2 hw2
    obtain ⟨m, rfl⟩ := hdd
    obtain ⟨n, rfl⟩ := hhh
    obtain ⟨k, rfl⟩ := hww
    have e1 : 2 * m / 2 = m := by omega
    have e2 : 2 * n / 2 = n := by omega
    have e3 : 2 * k / 2 = k := by omega
    rw [e1, e2, e3]
    exact blockShape_down c bb (2 * m) (2 * n) (2 * k) m n k rfl rfl rfl
      (by omega) (by omega) (by omega)
  · intro blk hmem hnd sh sh2 hbs
    rw [encoderBlocksAKL_eq] at hmem
    fin_cases hmem <;>
      first
        | exact absurd hnd (by decide)
        | exact convShape_preserve hbs rfl rfl
        | exact res_preserve hbs
        | (rw [gn_preserve hbs]; exact ⟨rfl, rfl, rfl⟩)

/-- Witness for `C5_encoder_eighth_resolution` at the concrete input shape
`(1, 1, 8, 8, 8)`. -/
theorem C5_witness :
    (8 ∣ (8 : Nat)) ∧ 0 < (8 : Nat) ∧
      runBlocks encoderBlocksAKL ⟨1, 1, 8, 8, 8⟩ = some ⟨1, 3, 1, 1, 1⟩ :=
  ⟨by decide, by decide,
    (C5_encoder_eighth_resolution 1 8 8 8 (by decide) (by decide) (by decide)
      (by decide) (by decide) (by decide)).1⟩

/-- C6: on an input volume of shape `(B, 1, d, h, w)` with `d, h, w` divisible
by 8, `decode(encode(x))` has exactly the input's shape — the three `Upsample`
blocks each double every spatial dimension, inverting the encoder's three
halvings, and the final convolution maps to `out_channels = 1`. -/
theorem C6_decode_encode_roundtrip_shape (B d h w : Nat)
    (hd8 : 8 ∣ d) (hh8 : 8 ∣ h) (hw8 : 8 ∣ w)
    (hd0 : 0 < d) (hh0 : 0 < h) (hw0 : 0 < w) :
    aklRoundTripShape ⟨B, 1, d, h, w⟩ = some ⟨B, 1, d, h, w⟩ ∧
    (∀ c bb d2 h2 w2 : Nat, 0 < d2 → 0 < h2 → 0 < w2 →
      blockShape (Block.upsample c) ⟨bb, c, d2, h2, w2⟩
        = some ⟨bb, c, 2 * d2, 2 * h2, 2 * w2⟩) := by
  constructor
  · obtain ⟨p, rfl⟩ := hd8
    obtain ⟨q, rfl⟩ := hh8
    obtain ⟨r, rfl⟩ := hw8
    have hp : 1 ≤ p := by omega
    have hq : 1 ≤ q := by omega
    have hr : 1 ≤ r := by omega
    unfold aklRoundTripShape aklEncodeShape aklDecodeShape
    rw [encRun B p q r hp hq hr]
    simp only [obind_some]
    rw [convShape_eval1 3 3 B p q r hp hq hr]
    simp only [obind_some]
    rw [convShape_eval1 3 3 B p q r hp hq hr]
    simp only [obind_some]
    exact decRun B p q r hp hq hr
  · intro c bb d2 h2 w2 ha hb hc
    exact blockShape_up c bb d2 h2 w2 (2 * d2) (2 * h2) (2 * w2) rfl rfl rfl ha hb hc

/-- Witness for `C6_decode_encode_roundtrip_shape` at the concrete input shape
`(1, 1, 8, 8, 8)`. -/
theorem C6_witness :
    (8 ∣ (8 : Nat)) ∧ 0 < (8 : Nat) ∧
      aklRoundTripShape ⟨1, 1, 8, 8, 8⟩ = some ⟨1, 1, 8, 8, 8⟩ :=
  ⟨by decide, by decide,
    (C6_decode_encode_roundtrip_shape 1 8 8 8 (by decide) (by decide) (by decide)
      (by decide) (by decide) (by decide)).1⟩

/-- C7: for every mean tensor `z_mu`, sigma tensor `z_sigma` of the same
shape, and noise tensor `eps` drawn for the call (the `torch.randn_like`
sample, passed explicitly and sharing `z_sigma`'s index set), the sampling
operation returns exactly `z_mu + eps * z_sigma`. -/
theorem C7_sampling_reparameterization (m : AutoencoderKL Vd Zd Ld)
    (z_mu z_sigma eps : Tens Ld) :
    m.sampling z_mu z_sigma eps = z_mu + eps * z_sigma := rfl

/-- C8: within one iteration of the training loop, every phase other than the
optimizer step — gradient clearing, back-propagation, bookkeeping, scalar
logging, checkpoint saving, image logging, validation (and the purely
functional encode/decode/loss computation) — leaves the model parameters
unchanged, and the parameters after the iteration are exactly the output of
the optimizer update applied to the previous parameters. -/
theorem C8_params_mutated_only_by_optimizer [Fintype Vd] (cfg : TrainCfg)
    (gradOf : (AutoencoderKL Vd Zd Ld → ℝ) → AutoencoderKL Vd Zd Ld → G)
    (optStepF : O → AutoencoderKL Vd Zd Ld → G → AutoencoderKL Vd Zd Ld × O)
    (valBatches : List (Tens Vd)) (grad : Tens Vd) (lossVal : ℝ)
    (s : TrainState Vd Zd Ld G O) :
    (zeroGradPhase s).vae = s.vae ∧
    (backwardPhase gradOf grad s).vae = s.vae ∧
    (bookkeepPhase lossVal s).vae = s.vae ∧
    (logPhase cfg s).1.vae = s.vae ∧
    (ckptPhase cfg s).1.vae = s.vae ∧
    (imagePhase cfg s).1.vae = s.vae ∧
    (valPhase cfg valBatches s).1.vae = s.vae ∧
    (loopIter cfg gradOf optStepF valBatches s grad).1.vae
      = (optStepF s.opt s.vae (gradOf (stepLossFn grad) s.vae)).1 := by
  refine ⟨rfl, rfl, rfl, logPhase_fst_vae cfg s, ?_, ?_, ?_, ?_⟩
  · rw [ckptPhase_fst]
  · rw [imagePhase_fst]
  · rw [valPhase_fst]
  · simp only [loopIter]
    rw [valPhase_fst, imagePhase_fst, ckptPhase_fst, logPhase_fst_vae]
    rfl

/-- C9: starting from `global_step = 0`, a checkpoint is written at step `k`
if and only if `k` is a positive multiple of `ckpt_every` and at most the
number of executed iterations — checkpoints appear at exactly the fixed
interval and at no other step. -/
theorem C9_ckpt_exactly_at_multiples [Fintype Vd] (cfg : TrainCfg)
    (gradOf : (AutoencoderKL Vd Zd Ld → ℝ) → AutoencoderKL Vd Zd Ld → G)
    (optStepF : O → AutoencoderKL Vd Zd Ld → G → AutoencoderKL Vd Zd Ld × O)
    (valBatches : List (Tens Vd)) (s : TrainState Vd Zd Ld G O) (gs : List (Tens Vd))
    (_hE : 0 < cfg.ckpt_every) (h0 : s.global_step = 0) (k : Nat) :
    k ∈ ckptSteps (runLoop cfg gradOf optStepF valBatches s gs).2 ↔
      (0 < k ∧ k ≤ gs.length ∧ cfg.ckpt_every ∣ k) := by
  rw [runLoop_ckpt_mem cfg gradOf optStepF valBatches gs s k, h0]
  constructor
  · rintro ⟨h1, h2, h3⟩
    exact ⟨by omega, by omega, Nat.dvd_of_mod_eq_zero h3⟩
  · rintro ⟨h1, h2, h3⟩
    refine ⟨by omega, by omega, ?_⟩
    obtain ⟨c, rfl⟩ := h3
    exact Nat.mul_mod_right cfg.ckpt_every c

/-- Witness for `C9_ckpt_exactly_at_multiples` with `ckpt_every = 2` over a
run of three iterations. -/
theorem C9_witness :
    0 < cfg0.ckpt_every ∧ s0.global_step = 0 ∧
      (2 ∈ ckptSteps (runLoop cfg0 gradOf0 optStep0 [] s0 batches0).2 ↔
        (0 < 2 ∧ 2 ≤ batches0.length ∧ cfg0.ckpt_every ∣ 2)) :=
  ⟨by decide, rfl,
    C9_ckpt_exactly_at_multiples cfg0 gradOf0 optStep0 [] s0 batches0 (by decide) rfl 2⟩

/-- C10: constructing an `OnlyEncoder` always fails — the name loads of
`OnlyEncoder.__init__` resolve until `embed_dim`, which is bound neither
locally nor at module level nor as a builtin, so every invocation raises
`NameError` on `embed_dim` and no instance is created. -/
theorem C10_only_encoder_always_fails :
    OnlyEncoder.construct = Except.error PyName.embed_dim := rfl

end BMENet
